import Mathlib

/-!
Verification development for the ace CLI execution/resilience core.

The TypeScript sources are shallowly embedded as Lean functions:

* src/src/utils/retry.ts        : isRetryableError, withRetry (backoff loop)
* src/src/utils/python.ts       : parseProgressLine, the stderr progress
                                  state machine of runWorkflow, and the
                                  close-handler result resolution
* src/unnamed/part_002          : FabricClient.request response handling
* src/unnamed/part_003          : classifyPythonError and its helpers,
                                  ensurePython resolution chain

JavaScript strings are modelled as Lean String values and all string
primitives (trim, includes, split, regex-like matching) are re-implemented
on List Char so that every definition evaluates inside the kernel.
JSON.parse is modelled by an executable JSON parser over the JSON grammar;
numbers are kept as their source lexemes (their numeric value is never
inspected by the code under verification).  Unicode corner cases of the
JavaScript regexp whitespace class and of lone surrogates in JSON string
escapes are modelled by their ASCII behaviour, which is the only behaviour
the verified claims exercise.
-/

/-- Whitespace class used by JavaScript regular expressions and trim for
ASCII input: space, tab, newline, carriage return, vertical tab, form feed. -/
def regexWsChar (c : Char) : Bool :=
  c = ' ' || c = '\t' || c = '\n' || c = '\r' || c = '\x0b' || c = '\x0c'

/-- Trim of a character list, as the JavaScript String.prototype.trim. -/
def trimL (cs : List Char) : List Char :=
  ((cs.dropWhile regexWsChar).reverse.dropWhile regexWsChar).reverse

/-- JavaScript s.trim() on strings. -/
def jsTrim (s : String) : String := String.mk (trimL s.toList)

/-- Does the first list start with the second (pattern) list. -/
def startsWithL : List Char → List Char → Bool
  | _, [] => true
  | [], _ :: _ => false
  | a :: as, b :: bs => a = b && startsWithL as bs

/-- Does the list contain the pattern as a contiguous sublist; this is the
JavaScript String.prototype.includes on the underlying characters. -/
def hasSub : List Char → List Char → Bool
  | [], pat => pat.isEmpty
  | c :: rest, pat => startsWithL (c :: rest) pat || hasSub rest pat

/-- JavaScript s.includes(pat). -/
def strIncludes (s pat : String) : Bool := hasSub s.toList pat.toList

/-- JavaScript a || b on strings: the first operand unless it is the empty
string (the only falsy string). -/
def jsOr (a b : String) : String := if a = "" then b else a

/-- JavaScript s.split with separator a single newline. -/
def splitNl : List Char → List (List Char)
  | [] => [[]]
  | c :: rest =>
    match splitNl rest with
    | [] => [[c]]
    | g :: gs => if c = '\n' then [] :: g :: gs else (c :: g) :: gs

/-- Value of a non-empty decimal digit string, as parseInt(-, 10). -/
def digitsToNatAux : Nat → List Char → Nat
  | acc, [] => acc
  | acc, c :: cs => digitsToNatAux (acc * 10 + (c.toNat - 48)) cs

/-- Value of a non-empty decimal digit string, as parseInt(-, 10). -/
def digitsToNat (ds : List Char) : Nat := digitsToNatAux 0 ds

/-- The apostrophe character, used by the error-classifier patterns. -/
def quoteChar : Char := Char.ofNat 39

/-- Case-sensitive literal match: on success returns the rest of the input. -/
def matchLit : List Char → List Char → Option (List Char)
  | [], cs => some cs
  | _ :: _, [] => none
  | p :: ps, c :: cs => if p = c then matchLit ps cs else none

/-- Case-insensitive literal match (ASCII folding, as a /i regexp literal):
on success returns the rest of the input. -/
def matchLitCI : List Char → List Char → Option (List Char)
  | [], cs => some cs
  | _ :: _, [] => none
  | p :: ps, c :: cs => if p.toLower = c.toLower then matchLitCI ps cs else none

/-- Join a list of strings with newline separators, as Array.prototype.join. -/
def joinWithNl : List String → String
  | [] => ""
  | [s] => s
  | s :: s2 :: rest => s ++ "\n" ++ joinWithNl (s2 :: rest)

/-- First index at which the pattern occurs as a contiguous sublist. -/
def findSubIdx : List Char → List Char → Option Nat
  | [], pat => if pat.isEmpty then some 0 else none
  | c :: rest, pat =>
    if startsWithL (c :: rest) pat then some 0
    else (findSubIdx rest pat).map (· + 1)

/-- Index of the last occurrence of a character, accumulator form. -/
def lastIdxOfAux : List Char → Char → Nat → Option Nat → Option Nat
  | [], _, _, best => best
  | c :: rest, t, i, best =>
    lastIdxOfAux rest t (i + 1) (if c = t then some i else best)

/-- Index of the last occurrence of a character. -/
def lastIdxOf (cs : List Char) (t : Char) : Option Nat := lastIdxOfAux cs t 0 none

/-! ## JSON values and a model of JSON.parse

JSON.parse of the JavaScript runtime: parses one JSON value surrounded by
optional JSON whitespace and fails (throws a SyntaxError) on anything else.
Number tokens are kept as lexemes; object fields are kept in source order.
A lone surrogate in a string escape is approximated by the null character
(JavaScript would keep the lone surrogate, which a Lean Char cannot hold);
no claim exercises that corner. -/

inductive Json where
  | null
  | bool (b : Bool)
  | num (lexeme : String)
  | str (s : String)
  | arr (elems : List Json)
  | obj (fields : List (String × Json))

/-- JSON whitespace: exactly space, tab, newline, carriage return. -/
def jsonWsChar (c : Char) : Bool :=
  c = ' ' || c = '\t' || c = '\n' || c = '\r'

/-- Drop leading JSON whitespace. -/
def skipJsonWs (cs : List Char) : List Char := cs.dropWhile jsonWsChar

/-- Value of a hexadecimal digit. -/
def hexVal (c : Char) : Option Nat :=
  if '0' ≤ c && c ≤ '9' then some (c.toNat - 48)
  else if 'a' ≤ c && c ≤ 'f' then some (c.toNat - 87)
  else if 'A' ≤ c && c ≤ 'F' then some (c.toNat - 55)
  else none

/-- Value of four hexadecimal digits. -/
def hex4 (a b c d : Char) : Option Nat :=
  match hexVal a, hexVal b, hexVal c, hexVal d with
  | some x, some y, some z, some w => some (((x * 16 + y) * 16 + z) * 16 + w)
  | _, _, _, _ => none

/-- Body of a JSON string after the opening quote (fuel-indexed; callers
pass at least the input length so fuel never runs out first): returns the
decoded string and the input following the closing quote. -/
def parseJsonStringBody : Nat → List Char → List Char → Option (String × List Char)
  | 0, _, _ => none
  | _ + 1, acc, '"' :: rest => some (String.mk acc.reverse, rest)
  | fuel + 1, acc, '\\' :: 'u' :: h1 :: h2 :: h3 :: h4 :: rest =>
    (match hex4 h1 h2 h3 h4 with
    | none => none
    | some n =>
      if 0xD800 ≤ n && n ≤ 0xDBFF then
        match rest with
        | '\\' :: 'u' :: g1 :: g2 :: g3 :: g4 :: rest2 =>
          match hex4 g1 g2 g3 g4 with
          | some m =>
            if 0xDC00 ≤ m && m ≤ 0xDFFF then
              parseJsonStringBody fuel
                (Char.ofNat (0x10000 + (n - 0xD800) * 0x400 + (m - 0xDC00)) :: acc) rest2
            else parseJsonStringBody fuel (Char.ofNat n :: acc) rest
          | none => parseJsonStringBody fuel (Char.ofNat n :: acc) rest
        | _ => parseJsonStringBody fuel (Char.ofNat n :: acc) rest
      else parseJsonStringBody fuel (Char.ofNat n :: acc) rest)
  | fuel + 1, acc, '\\' :: e :: rest =>
    if e = '"' then parseJsonStringBody fuel ('"' :: acc) rest
    else if e = '\\' then parseJsonStringBody fuel ('\\' :: acc) rest
    else if e = '/' then parseJsonStringBody fuel ('/' :: acc) rest
    else if e = 'b' then parseJsonStringBody fuel ('\x08' :: acc) rest
    else if e = 'f' then parseJsonStringBody fuel ('\x0c' :: acc) rest
    else if e = 'n' then parseJsonStringBody fuel ('\n' :: acc) rest
    else if e = 'r' then parseJsonStringBody fuel ('\r' :: acc) rest
    else if e = 't' then parseJsonStringBody fuel ('\t' :: acc) rest
    else none
  | fuel + 1, acc, c :: rest =>
    if c.toNat < 0x20 then none else parseJsonStringBody fuel (c :: acc) rest
  | _ + 1, _, [] => none

/-- Exponent part of a JSON number token (possibly absent). -/
def parseJsonNumberExp (lex : List Char) (cs : List Char) :
    Option (List Char × List Char) :=
  match cs with
  | c :: rest =>
    if c = 'e' || c = 'E' then
      let (sgn, rest2) :=
        match rest with
        | s :: r2 => if s = '+' || s = '-' then ([s], r2) else (([] : List Char), rest)
        | [] => (([] : List Char), rest)
      let ds := rest2.takeWhile Char.isDigit
      if ds.isEmpty then none
      else some (lex ++ c :: sgn ++ ds, rest2.dropWhile Char.isDigit)
    else some (lex, cs)
  | [] => some (lex, cs)

/-- Fraction part of a JSON number token (possibly absent), then the
exponent part. -/
def parseJsonNumberFrac (lex : List Char) (cs : List Char) :
    Option (List Char × List Char) :=
  match cs with
  | '.' :: rest =>
    let ds := rest.takeWhile Char.isDigit
    if ds.isEmpty then none
    else parseJsonNumberExp (lex ++ '.' :: ds) (rest.dropWhile Char.isDigit)
  | _ => parseJsonNumberExp lex cs

/-- One JSON number token: returns the lexeme and the rest of the input.
Grammar: minus? (0 | [1-9] digit*) (. digit+)? ([eE] [+-]? digit+)? . -/
def parseJsonNumber (cs : List Char) : Option (List Char × List Char) :=
  let (neg, cs1) :=
    match cs with
    | '-' :: rest => (['-'], rest)
    | _ => (([] : List Char), cs)
  match cs1 with
  | '0' :: rest => parseJsonNumberFrac (neg ++ ['0']) rest
  | c :: rest =>
    if '1' ≤ c && c ≤ '9' then
      parseJsonNumberFrac (neg ++ c :: rest.takeWhile Char.isDigit)
        (rest.dropWhile Char.isDigit)
    else none
  | [] => none

mutual

/-- One JSON value at the head of the input (fuel-indexed recursion). -/
def parseJsonValue : Nat → List Char → Option (Json × List Char)
  | 0, _ => none
  | fuel + 1, cs =>
    match cs with
    | [] => none
    | 'n' :: 'u' :: 'l' :: 'l' :: rest => some (Json.null, rest)
    | 't' :: 'r' :: 'u' :: 'e' :: rest => some (Json.bool true, rest)
    | 'f' :: 'a' :: 'l' :: 's' :: 'e' :: rest => some (Json.bool false, rest)
    | '"' :: rest =>
      (parseJsonStringBody (rest.length + 1) [] rest).map (fun p => (Json.str p.1, p.2))
    | '[' :: rest =>
      match skipJsonWs rest with
      | ']' :: rest2 => some (Json.arr [], rest2)
      | r => parseJsonElems fuel r []
    | '{' :: rest =>
      match skipJsonWs rest with
      | '}' :: rest2 => some (Json.obj [], rest2)
      | r => parseJsonMembers fuel r []
    | c :: _ =>
      if c = '-' || c.isDigit then
        (parseJsonNumber cs).map (fun p => (Json.num (String.mk p.1), p.2))
      else none

/-- Comma-separated JSON array elements up to the closing bracket. -/
def parseJsonElems : Nat → List Char → List Json → Option (Json × List Char)
  | 0, _, _ => none
  | fuel + 1, cs, acc =>
    match parseJsonValue fuel cs with
    | none => none
    | some (v, rest) =>
      match skipJsonWs rest with
      | ',' :: rest2 => parseJsonElems fuel (skipJsonWs rest2) (v :: acc)
      | ']' :: rest2 => some (Json.arr (v :: acc).reverse, rest2)
      | _ => none

/-- Comma-separated JSON object members up to the closing brace. -/
def parseJsonMembers : Nat → List Char → List (String × Json) →
    Option (Json × List Char)
  | 0, _, _ => none
  | fuel + 1, cs, acc =>
    match cs with
    | '"' :: rest =>
      match parseJsonStringBody (rest.length + 1) [] rest with
      | none => none
      | some (key, rest2) =>
        match skipJsonWs rest2 with
        | ':' :: rest3 =>
          match parseJsonValue fuel (skipJsonWs rest3) with
          | none => none
          | some (v, rest4) =>
            match skipJsonWs rest4 with
            | ',' :: rest5 => parseJsonMembers fuel (skipJsonWs rest5) ((key, v) :: acc)
            | '}' :: rest5 => some (Json.obj ((key, v) :: acc).reverse, rest5)
            | _ => none
        | _ => none
    | _ => none

end

/-- JSON.parse: one JSON value, optionally surrounded by JSON whitespace,
consuming the whole input; none models the thrown SyntaxError. -/
def jsonParse (s : String) : Option Json :=
  let cs := skipJsonWs s.toList
  match parseJsonValue (2 * cs.length + 2) cs with
  | some (v, rest) => if (skipJsonWs rest).isEmpty then some v else none
  | none => none

/-! ## src/src/utils/retry.ts

The thrown JavaScript error value is modelled by its two observable
attributes: whether it is a TypeError instance, and the message text that
the predicate inspects (error.message for Error instances, String(error)
otherwise). -/

structure JsErrorValue where
  isTypeError : Bool
  message : String
deriving DecidableEq

/-- The transient HTTP status codes of retry.ts (RETRYABLE_STATUS_CODES). -/
def RETRYABLE_STATUS_CODES : List Nat := [429, 502, 503, 504]

/-- Default predicate of retry.ts: retry on network errors and transient
HTTP status codes. -/
def isRetryableError (e : JsErrorValue) : Bool :=
  if e.isTypeError && strIncludes e.message "fetch" then true
  else
    let message := e.message
    if strIncludes message "ECONNREFUSED" || strIncludes message "ECONNRESET" ||
        strIncludes message "ETIMEDOUT" || strIncludes message "EAI_AGAIN" ||
        strIncludes message "fetch failed" then true
    else if RETRYABLE_STATUS_CODES.any
        (fun code => strIncludes message ("(" ++ toString code ++ ")")) then true
    else false

/-- The attempt loop of withRetry.  The operation is modelled as a function
from the attempt index to its outcome; remaining counts the loop iterations
still allowed by the guard (attempt less or equal maxRetries); the Option E
accumulator is the lastError variable, none standing for its undefined
initial value.  The result pairs the outcome (Except.error is a rejected
promise) with the number of times the operation was invoked. -/
def withRetryGo {E T : Type} (fn : Nat → Except E T) (shouldRetry : E → Bool) :
    Nat → Nat → Option E → Except (Option E) T × Nat
  | _, 0, lastError => (Except.error lastError, 0)
  | attempt, remaining + 1, _ =>
    match fn attempt with
    | Except.ok v => (Except.ok v, 1)
    | Except.error e =>
      if remaining == 0 || !shouldRetry e then (Except.error (some e), 1)
      else
        let r := withRetryGo fn shouldRetry (attempt + 1) remaining (some e)
        (r.1, r.2 + 1)

/-- withRetry of retry.ts: the loop runs for attempt = 0 while attempt is
at most maxRetries, so (maxRetries + 1).toNat iterations; after the loop the
lastError accumulator (still undefined when the body never ran) is thrown. -/
def withRetryRun {E T : Type} (fn : Nat → Except E T) (shouldRetry : E → Bool)
    (maxRetries : Int) : Except (Option E) T × Nat :=
  withRetryGo fn shouldRetry 0 (maxRetries + 1).toNat none

/-- Backoff delay of withRetry for a given 0-based attempt index
(idealized field arithmetic over the rationals). -/
def retryDelay (baseDelayMs maxDelayMs : ℚ) (attempt : Nat) : ℚ :=
  min (baseDelayMs * 2 ^ attempt) maxDelayMs

/-- Time slept before the next attempt: the delay plus the jitter
delay * 0.1 * r, where r models the Math.random() draw from [0, 1). -/
def retrySleepTime (baseDelayMs maxDelayMs : ℚ) (attempt : Nat) (r : ℚ) : ℚ :=
  retryDelay baseDelayMs maxDelayMs attempt +
    retryDelay baseDelayMs maxDelayMs attempt * (1 / 10) * r

/-! ## src/src/utils/python.ts -/

inductive EventType where
  | started
  | node_running
  | node_done
  | node_error
deriving DecidableEq

/-- ProgressEvent of python.ts; absent optional fields are none. -/
structure ProgressEvent where
  type : EventType
  totalNodes : Option Nat := none
  currentNode : Option Nat := none
  nodeName : Option String := none
  message : Option String := none
deriving DecidableEq

/-- Match of the started pattern at the head of the input: the literal
"Workflow started" (case-insensitive), optional whitespace, an opening
parenthesis, one or more digits, optional whitespace, "node" with an
optional "s", and a closing parenthesis.  Returns the captured count. -/
def matchStartedAt (cs : List Char) : Option Nat :=
  match matchLitCI "workflow started".toList cs with
  | none => none
  | some r1 =>
    match r1.dropWhile regexWsChar with
    | '(' :: r2 =>
      let ds := r2.takeWhile Char.isDigit
      let r3 := r2.dropWhile Char.isDigit
      if ds.isEmpty then none
      else
        match matchLitCI "node".toList (r3.dropWhile regexWsChar) with
        | none => none
        | some r4 =>
          match r4 with
          | ')' :: _ => some (digitsToNat ds)
          | c :: ')' :: _ => if c.toLower = 's' then some (digitsToNat ds) else none
          | _ => none
    | _ => none

/-- Leftmost match of the started pattern anywhere in the line. -/
def searchStarted : List Char → Option Nat
  | [] => none
  | c :: rest =>
    match matchStartedAt (c :: rest) with
    | some n => some n
    | none => searchStarted rest

/-- Match of a bracketed-name pattern at the head of the input: an opening
bracket, one or more non-bracket characters (captured), a closing bracket,
optional whitespace, then the given keyword case-insensitively. -/
def matchBracketKwAt (kw : List Char) (cs : List Char) : Option String :=
  match cs with
  | '[' :: rest =>
    let name := rest.takeWhile (fun c => c ≠ ']')
    let tail := rest.dropWhile (fun c => c ≠ ']')
    if name.isEmpty then none
    else
      match tail with
      | ']' :: after =>
        match matchLitCI kw (after.dropWhile regexWsChar) with
        | some _ => some (String.mk name)
        | none => none
      | _ => none
  | _ => none

/-- Leftmost match of a bracketed-name pattern anywhere in the line. -/
def searchBracketKw (kw : List Char) : List Char → Option String
  | [] => none
  | c :: rest =>
    match matchBracketKwAt kw (c :: rest) with
    | some n => some n
    | none => searchBracketKw kw rest

/-- Match of the node-error pattern at the head of the input: bracketed
name, optional whitespace, the literal "error:" case-insensitively,
optional whitespace, then the captured message (up to the line end). -/
def matchBracketErrAt (cs : List Char) : Option (String × String) :=
  match cs with
  | '[' :: rest =>
    let name := rest.takeWhile (fun c => c ≠ ']')
    let tail := rest.dropWhile (fun c => c ≠ ']')
    if name.isEmpty then none
    else
      match tail with
      | ']' :: after =>
        match matchLitCI "error:".toList (after.dropWhile regexWsChar) with
        | some r2 =>
          some (String.mk name,
            String.mk ((r2.dropWhile regexWsChar).takeWhile (fun c => c ≠ '\n')))
        | none => none
      | _ => none
  | _ => none

/-- Leftmost match of the node-error pattern anywhere in the line. -/
def searchBracketErr : List Char → Option (String × String)
  | [] => none
  | c :: rest =>
    match matchBracketErrAt (c :: rest) with
    | some p => some p
    | none => searchBracketErr rest

/-- parseProgressLine of python.ts: tries the started, running, done and
error patterns in that order and returns the first structured event. -/
def parseProgressLine (line : String) : Option ProgressEvent :=
  let cs := line.toList
  match searchStarted cs with
  | some n => some { type := EventType.started, totalNodes := some n }
  | none =>
  match searchBracketKw "running".toList cs with
  | some nm => some { type := EventType.node_running, nodeName := some nm }
  | none =>
  match searchBracketKw "done".toList cs with
  | some nm => some { type := EventType.node_done, nodeName := some nm }
  | none =>
  match searchBracketErr cs with
  | some p => some { type := EventType.node_error, nodeName := some p.1, message := some p.2 }
  | none => none

/-- Mutable counters of the stderr handler in runWorkflow. -/
structure ProgState where
  completedNodes : Nat
  totalNodes : Nat
deriving DecidableEq

/-- The annotation block of the stderr handler: a started event with a
truthy node count updates totalNodes; a node-done event increments the
completed count and is annotated; a node-running event is annotated with
the next index; all events are then forwarded. -/
def annotateStep (st : ProgState) (e : ProgressEvent) : ProgState × ProgressEvent :=
  match e.type with
  | EventType.started =>
    (if e.totalNodes.getD 0 != 0 then { st with totalNodes := e.totalNodes.getD 0 } else st, e)
  | EventType.node_done =>
    ({ st with completedNodes := st.completedNodes + 1 },
      { e with currentNode := some (st.completedNodes + 1), totalNodes := some st.totalNodes })
  | EventType.node_running =>
    (st, { e with currentNode := some (st.completedNodes + 1), totalNodes := some st.totalNodes })
  | EventType.node_error => (st, e)

/-- Per-line step of the stderr handler: trim, skip empty lines, parse,
then annotate and forward the event if one was recognized. -/
def processLine (st : ProgState) (line : String) : ProgState × Option ProgressEvent :=
  let trimmed := jsTrim line
  if trimmed = "" then (st, none)
  else
    match parseProgressLine trimmed with
    | none => (st, none)
    | some e =>
      let r := annotateStep st e
      (r.1, some r.2)

/-- Fold of the stderr handler over the lines obtained by splitting the
received chunks on newlines, collecting the forwarded events in order. -/
def processLines : ProgState → List String → ProgState × List ProgressEvent
  | st, [] => (st, [])
  | st, l :: ls =>
    match processLine st l with
    | (st1, none) => processLines st1 ls
    | (st1, some e) =>
      let r := processLines st1 ls
      (r.1, e :: r.2)

/-- Events forwarded to the progress observer for a list of stderr lines. -/
def emittedEvents (st : ProgState) (lines : List String) : List ProgressEvent :=
  (processLines st lines).2

/-- Number of node-done events in a list (spec-side counter). -/
def countDoneEvents (evs : List ProgressEvent) : Nat :=
  (evs.filter (fun e => e.type = EventType.node_done)).length

/-- Last announced total node count in a list of events, starting from t:
the count of the last started event whose count is truthy (spec-side). -/
def lastAnnouncedTotal (t : Nat) (evs : List ProgressEvent) : Nat :=
  evs.foldl
    (fun acc e =>
      if e.type = EventType.started && e.totalNodes.getD 0 != 0 then e.totalNodes.getD 0
      else acc) t

/-- Outcome of waiting on the child process in runWorkflow: either the
close event fired with an exit code, or the error event fired because the
process could not be spawned. -/
inductive ProcTermination where
  | closed (code : Int)
  | spawnError (errMessage : String)

/-- The close handler of runWorkflow in python.ts.  The whole handler body
is wrapped in a try whose only throwing statement is JSON.parse(stdout), so
a stdout parse failure reaches the outer catch, which resolves a synthetic
failure carrying stdout, or stderr, or the exit-code text, whichever is the
first non-empty (JavaScript or-chaining).  The stderr branch parses stderr
inside its own inner try and resolves the trimmed raw text on failure. -/
def closeResult (stdout stderr : String) (code : Int) : Json :=
  if jsTrim stdout ≠ "" then
    match jsonParse stdout with
    | some v => v
    | none =>
      Json.obj [("success", Json.bool false),
        ("error", Json.str (jsOr stdout (jsOr stderr ("Process exited with code " ++ toString code))))]
  else if jsTrim stderr ≠ "" then
    match jsonParse stderr with
    | some v => v
    | none => Json.obj [("success", Json.bool false), ("error", Json.str (jsTrim stderr))]
  else
    Json.obj [("success", Json.bool false),
      ("error", Json.str ("Process exited with code " ++ toString code))]

/-- Promise returned by runWorkflow, as a function of the buffered channel
contents and the terminal process event: the close event always resolves a
structured result; only the spawn-error event rejects. -/
def runWorkflowOutcome (stdout stderr : String) : ProcTermination → Except String Json
  | ProcTermination.closed code => Except.ok (closeResult stdout stderr code)
  | ProcTermination.spawnError e => Except.error e

/-! ## Error classifier of src/unnamed/part_003 (classifyPythonError) -/

/-- ClassifiedError of the error classifier. -/
structure ClassifiedError where
  message : String
  suggestion : Option String := none
deriving DecidableEq

/-- Match at the head of the input of the module-name pattern: the literal
"ModuleNotFoundError: No module named" followed by a quoted non-empty
capture. -/
def moduleMatchAt (cs : List Char) : Option String :=
  match matchLit ("ModuleNotFoundError: No module named ".toList ++ [quoteChar]) cs with
  | none => none
  | some a =>
    let nm := a.takeWhile (fun c => c ≠ quoteChar)
    if nm.isEmpty then none
    else
      match a.dropWhile (fun c => c ≠ quoteChar) with
      | c :: _ => if c = quoteChar then some (String.mk nm) else none
      | [] => none

/-- Leftmost match of the module-name pattern anywhere in the input. -/
def searchModuleMatch : List Char → Option String
  | [] => none
  | c :: rest =>
    match moduleMatchAt (c :: rest) with
    | some nm => some nm
    | none => searchModuleMatch rest

/-- Character class of the path pattern between the marker and the capture:
a colon or regexp whitespace. -/
def pathClassChar (c : Char) : Bool := c = ':' || regexWsChar c

/-- Characters admitted in the path capture: anything but a quote or a
newline. -/
def pathCaptureChar (c : Char) : Bool := c ≠ quoteChar && c ≠ '\n'

/-- Continuation of the path pattern after its marker: greedily consume
colon-or-whitespace, an optional opening quote, then capture one or more
non-quote non-newline characters (an optional closing quote follows).  When
the greedy run leaves no admissible capture character, the regexp engine
backtracks one class character, which then becomes the capture. -/
def pathCaptureAfter (a : List Char) : Option (List Char) :=
  let run := a.takeWhile pathClassChar
  let b := a.dropWhile pathClassChar
  let fallback : Option (List Char) :=
    match run.getLast? with
    | some c0 => some [c0]
    | none => none
  match b with
  | [] => fallback
  | q :: rest =>
    if q = quoteChar then
      match rest with
      | r :: _ => if pathCaptureChar r then some (rest.takeWhile pathCaptureChar) else fallback
      | [] => fallback
    else if pathCaptureChar q then some (b.takeWhile pathCaptureChar)
    else fallback

/-- Match at the head of the input of the path pattern: one of the two
marker alternatives, then the capture continuation. -/
def pathMatchAt (cs : List Char) : Option (List Char) :=
  match matchLit "No such file or directory".toList cs with
  | some a => pathCaptureAfter a
  | none =>
    match matchLit "not found".toList cs with
    | some a => pathCaptureAfter a
    | none => none

/-- Leftmost match of the path pattern anywhere in the input. -/
def searchPathMatch : List Char → Option (List Char)
  | [] => none
  | c :: rest =>
    match pathMatchAt (c :: rest) with
    | some cap => some cap
    | none => searchPathMatch rest

/-- Does a line match the Pydantic field-name shape: exactly two leading
whitespace characters followed by a non-whitespace character. -/
def twoSpaceIndentCheck (l : List Char) : Bool :=
  match l with
  | c1 :: c2 :: c3 :: _ => regexWsChar c1 && regexWsChar c2 && !regexWsChar c3
  | _ => false

/-- Removal of the first embedded type tag: optional whitespace, the
literal bracket-type-equals opening, anything up to the last closing
bracket of the line.  Returns the input unchanged when no tag closes. -/
def stripTypeTag (cs : List Char) : List Char :=
  match findSubIdx cs "[type=".toList with
  | none => cs
  | some q =>
    match lastIdxOf cs ']' with
    | none => cs
    | some r =>
      if q + 6 ≤ r then
        let p := q - ((cs.take q).reverse.takeWhile regexWsChar).length
        cs.take p ++ cs.drop (r + 1)
      else cs

/-- Scan of extractPydanticFields over consecutive line pairs: a field-name
line followed by a detail line contributes one bulleted entry unless the
detail line is empty or starts the further-information footer. -/
def pydScan : List (List Char) → List String
  | l1 :: l2 :: rest =>
    (if twoSpaceIndentCheck l1 then
      let errorLine := trimL l2
      if errorLine ≠ [] && !startsWithL errorLine "For further".toList then
        [String.mk (trimL l1) ++ ": " ++ String.mk (stripTypeTag errorLine)]
      else []
    else []) ++ pydScan (l2 :: rest)
  | _ => []

/-- extractPydanticFields of the error classifier. -/
def extractPydanticFields (raw : String) : List String :=
  pydScan (splitNl raw.toList)

/-- Is a trimmed line substantive: non-empty and not stack-frame noise. -/
def meaningfulLineCheck (t : List Char) : Bool :=
  t ≠ [] && !startsWithL t "Traceback".toList && !startsWithL t "File ".toList &&
    !startsWithL t "^".toList && !startsWithL t "~~~".toList &&
    !startsWithL t "During handling".toList

/-- First line of the list (already reversed by the caller, so the last
line of the text) whose trimmed form is substantive. -/
def firstMeaningful : List (List Char) → Option (List Char)
  | [] => none
  | l :: rest =>
    if meaningfulLineCheck (trimL l) then some (trimL l) else firstMeaningful rest

/-- extractLastMeaningfulLine of the error classifier: walk the lines
backwards for the last substantive one; otherwise the first 200 characters
of the trimmed input. -/
def extractLastMeaningfulLine (raw : String) : String :=
  let lines := splitNl (trimL raw.toList)
  match firstMeaningful lines.reverse with
  | some l => String.mk l
  | none => String.mk ((trimL raw.toList).take 200)

/-- classifyPythonError of the error classifier: first matching branch of
the taxonomy wins; the default branch strips traceback noise. -/
def classifyPythonError (raw : String) : ClassifiedError :=
  let cs := raw.toList
  if hasSub cs "ModuleNotFoundError".toList then
    let moduleName := (searchModuleMatch cs).getD "unknown"
    if strIncludes moduleName "aceteam_nodes" then
      { message := "Python module \"aceteam_nodes\" is not installed.",
        suggestion := some "Run `ace init` to install dependencies." }
    else
      { message := "Missing Python module: " ++ moduleName,
        suggestion := some "Run `ace init` to reinstall dependencies." }
  else if hasSub cs "AuthenticationError".toList || hasSub cs "api_key".toList ||
      hasSub cs "API key".toList || hasSub cs "Incorrect API key".toList then
    { message := "API authentication failed.",
      suggestion := some "Set your API key: export OPENAI_API_KEY=sk-... or export ANTHROPIC_API_KEY=sk-ant-..." }
  else if hasSub cs "ValidationError".toList && hasSub cs "validation error".toList then
    let fieldErrors := extractPydanticFields raw
    if fieldErrors.length > 0 then
      { message := "Validation failed:\n" ++ joinWithNl (fieldErrors.map (fun f => "  - " ++ f)) }
    else
      { message := "Input validation failed. Check your workflow inputs." }
  else if hasSub cs "ConnectionError".toList || hasSub cs "ConnectError".toList ||
      hasSub cs "ECONNREFUSED".toList || hasSub cs "httpx.ConnectError".toList then
    { message := "Network connection failed.",
      suggestion := some "Check your internet connection and try again." }
  else if hasSub cs "FileNotFoundError".toList || hasSub cs "WorkflowFileNotFoundError".toList then
    match searchPathMatch cs with
    | some cap =>
      { message := "File not found: " ++ String.mk (trimL cap),
        suggestion := some "Verify the file path and try again." }
    | none =>
      { message := "Workflow file not found.",
        suggestion := some "Verify the file path and try again." }
  else if hasSub cs "TimeoutError".toList || hasSub cs "timed out".toList then
    { message := "Operation timed out.",
      suggestion := some "Try again or check if the model endpoint is responding." }
  else if hasSub cs "RateLimitError".toList || hasSub cs "rate_limit".toList ||
      hasSub cs "429".toList then
    { message := "Rate limited by the API provider.",
      suggestion := some "Wait a moment and try again." }
  else
    { message := extractLastMeaningfulLine raw }

/-! ## Remote client of src/unnamed/part_002 (FabricClient.request) -/

/-- Observable attributes of the fetch Response consumed by the client. -/
structure HttpResponse where
  status : Nat
  body : String
  statusText : String
deriving DecidableEq

/-- Response.ok of the fetch API: status in the inclusive range 200-299. -/
def respOk (status : Nat) : Bool := 200 ≤ status && status ≤ 299

/-- Message of the error thrown by FabricClient.request on a non-ok
response: the numeric status and the body text, or the status reason phrase
when the body is empty. -/
def fabricErrorMessage (status : Nat) (body statusText : String) : String :=
  "Fabric API error (" ++ toString status ++ "): " ++ jsOr body statusText

/-- Failure of one attempt of FabricClient.request: the thrown status
error, or the rejection of response.json() on a non-JSON success body
(whose SyntaxError message is environment-defined and not modelled). -/
inductive FabricFailure where
  | thrownMessage (msg : String)
  | bodyNotJson
deriving DecidableEq

/-- One attempt of FabricClient.request as a function of the response the
fetch resolved with. -/
def fabricAttempt (resp : HttpResponse) : Except FabricFailure Json :=
  if !respOk resp.status then
    Except.error (FabricFailure.thrownMessage
      (fabricErrorMessage resp.status resp.body resp.statusText))
  else
    match jsonParse resp.body with
    | some v => Except.ok v
    | none => Except.error FabricFailure.bodyNotJson

/-- Default retry predicate as applied to an attempt failure; the thrown
status error is a plain Error instance, so not a TypeError.  The verdict on
the environment-defined SyntaxError message is the jr parameter. -/
def fabricShouldRetry (jr : Bool) : FabricFailure → Bool
  | FabricFailure.thrownMessage m => isRetryableError { isTypeError := false, message := m }
  | FabricFailure.bodyNotJson => jr

/-- A FabricClient call whose every fetch resolves with the same response,
run through withRetry with the default options (maxRetries 3). -/
def fabricRequestWithRetry (resp : HttpResponse) (jr : Bool) :
    Except (Option FabricFailure) Json × Nat :=
  withRetryRun (fun _ => fabricAttempt resp) (fabricShouldRetry jr) 3

/-! ## Runtime resolution of src/unnamed/part_003 (ensurePython) -/

/-- Environment oracle for the effects consulted by ensurePython: the two
configured locations, the filesystem existence probe, the probe that tries
importing the dependency, the result of system-path discovery (findPython),
whether an on-demand install would succeed, and the platform flag. -/
structure EnsureEnv where
  python_path : Option String
  venv_dir : Option String
  fileExists : String → Bool
  nodesInstalled : String → Bool
  foundPython : Option String
  installOk : Bool
  isWin32 : Bool

/-- JavaScript truthiness of an optional string configuration entry. -/
def jsTruthyStr (s : String) : Bool := s != ""

/-- getVenvPythonPath of python.ts: the platform-dependent interpreter
location inside a virtual environment directory. -/
def getVenvPythonPath (isWin32 : Bool) (venvDir : String) : String :=
  if isWin32 then venvDir ++ "\\Scripts\\python.exe" else venvDir ++ "/bin/python"

/-- isVenvValid of python.ts: the interpreter path exists on disk. -/
def isVenvValidIn (env : EnsureEnv) (venvDir : String) : Bool :=
  env.fileExists (getVenvPythonPath env.isWin32 venvDir)

/-- Result of ensurePython: a resolved interpreter path, or process
termination with a non-zero status after printing guidance. -/
inductive EnsureOutcome where
  | ok (path : String)
  | exitFailure
deriving DecidableEq

/-- Final fallback of ensurePython: system-path discovery, with an
on-demand dependency install; no runtime or a failed install is fatal. -/
def ensurePythonDiscovery (env : EnsureEnv) : EnsureOutcome :=
  match env.foundPython with
  | none => EnsureOutcome.exitFailure
  | some p =>
    if env.nodesInstalled p then EnsureOutcome.ok p
    else if env.installOk then EnsureOutcome.ok p
    else EnsureOutcome.exitFailure

/-- Second step of ensurePython: the configured managed venv, when set,
valid, and its interpreter has the dependency. -/
def ensurePythonVenvStep (env : EnsureEnv) : EnsureOutcome :=
  match env.venv_dir with
  | some d =>
    if jsTruthyStr d && isVenvValidIn env d then
      if env.nodesInstalled (getVenvPythonPath env.isWin32 d) then
        EnsureOutcome.ok (getVenvPythonPath env.isWin32 d)
      else ensurePythonDiscovery env
    else ensurePythonDiscovery env
  | none => ensurePythonDiscovery env

/-- ensurePython of src/unnamed/part_003: configured explicit path first,
then the managed venv, then system-path discovery. -/
def ensurePython (env : EnsureEnv) : EnsureOutcome :=
  match env.python_path with
  | some p =>
    if jsTruthyStr p && env.fileExists p then
      if env.nodesInstalled p then EnsureOutcome.ok p
      else ensurePythonVenvStep env
    else ensurePythonVenvStep env
  | none => ensurePythonVenvStep env

/-- Discovery step of the resolution policy as worded by the
specification: system-path discovery with an on-demand install, any
terminal failure being fatal. -/
def resolutionPolicySpecDiscovery (env : EnsureEnv) : EnsureOutcome :=
  match env.foundPython with
  | none => EnsureOutcome.exitFailure
  | some p =>
    if env.nodesInstalled p = true then EnsureOutcome.ok p
    else if env.installOk = true then EnsureOutcome.ok p
    else EnsureOutcome.exitFailure

/-- Managed-environment step of the resolution policy as worded by the
specification: used only if configured, valid, and its runtime has the
dependency. -/
def resolutionPolicySpecManaged (env : EnsureEnv) : EnsureOutcome :=
  match env.venv_dir with
  | some d =>
    if d ≠ "" ∧ isVenvValidIn env d = true ∧
        env.nodesInstalled (getVenvPythonPath env.isWin32 d) = true then
      EnsureOutcome.ok (getVenvPythonPath env.isWin32 d)
    else resolutionPolicySpecDiscovery env
  | none => resolutionPolicySpecDiscovery env

/-- Resolution policy as worded by the specification: prefer the configured
explicit runtime path if it exists and has the dependency; else the
configured managed environment if valid with the dependency; else
system-path discovery.  Stated independently of ensurePython to compare
the two. -/
def resolutionPolicySpec (env : EnsureEnv) : EnsureOutcome :=
  match env.python_path with
  | some p =>
    if p ≠ "" ∧ env.fileExists p = true ∧ env.nodesInstalled p = true then EnsureOutcome.ok p
    else resolutionPolicySpecManaged env
  | none => resolutionPolicySpecManaged env

/-! ## Theorems about the claims -/

/-- C1, counterexample.  With a non-empty primary channel that is not JSON
and a non-empty diagnostic channel, the close handler resolves a failure
carrying the raw primary text, not the trimmed diagnostic text the claim
prescribes for every non-JSON-primary case. -/
theorem claim1_counterexample :
    closeResult "oops" "boom" 1
      = Json.obj [("success", Json.bool false), ("error", Json.str "oops")] ∧
    Json.obj [("success", Json.bool false), ("error", Json.str "oops")]
      ≠ Json.obj [("success", Json.bool false), ("error", Json.str "boom")] := by
  refine ⟨rfl, ?_⟩
  simp

/-- C1, amended.  On termination, a non-empty parseable stdout resolves as
the result regardless of exit code; a non-empty unparseable stdout resolves
a failure carrying the raw stdout text (the diagnostic channel is consulted
only when stdout is whitespace-empty); with stdout empty and stderr
non-empty, stderr is parsed as JSON, or on failure a failure with the
trimmed stderr is resolved; with both channels empty the failure names the
exit code; a spawn error is the sole case that rejects the promise. -/
theorem claim1_amended (stdout stderr : String) (code : Int) :
    (∀ v, jsTrim stdout ≠ "" → jsonParse stdout = some v →
      closeResult stdout stderr code = v) ∧
    (jsTrim stdout ≠ "" → jsonParse stdout = none →
      closeResult stdout stderr code
        = Json.obj [("success", Json.bool false), ("error", Json.str stdout)]) ∧
    (jsTrim stdout = "" → jsTrim stderr ≠ "" →
      (∀ v, jsonParse stderr = some v → closeResult stdout stderr code = v) ∧
      (jsonParse stderr = none → closeResult stdout stderr code
        = Json.obj [("success", Json.bool false), ("error", Json.str (jsTrim stderr))])) ∧
    (jsTrim stdout = "" → jsTrim stderr = "" →
      closeResult stdout stderr code
        = Json.obj [("success", Json.bool false),
            ("error", Json.str ("Process exited with code " ++ toString code))]) ∧
    (∀ e, runWorkflowOutcome stdout stderr (ProcTermination.spawnError e) = Except.error e) ∧
    (runWorkflowOutcome stdout stderr (ProcTermination.closed code)
      = Except.ok (closeResult stdout stderr code)) := by
  have hne : jsTrim stdout ≠ "" → stdout ≠ "" := by
    intro h he
    exact h (by rw [he]; rfl)
  refine ⟨?_, ?_, ?_, ?_, fun e => rfl, rfl⟩
  · intro v ht hp
    simp [closeResult, ht, hp]
  · intro ht hp
    simp [closeResult, ht, hp, jsOr, hne ht]
  · intro ht hs
    refine ⟨?_, ?_⟩
    · intro v hp
      simp [closeResult, ht, hs, hp]
    · intro hp
      simp [closeResult, ht, hs, hp]
  · intro ht hs
    simp [closeResult, ht, hs]

/-- C1, witness: the two specification scenarios, both channels empty with
exit code 1, and a successful JSON result on the primary channel. -/
theorem claim1_witness :
    closeResult "" "" 1
      = Json.obj [("success", Json.bool false), ("error", Json.str "Process exited with code 1")] ∧
    closeResult "\x7b\"success\":true,\"output\":\x7b\"response\":\"hi\"\x7d\x7d" "" 0
      = Json.obj [("success", Json.bool true),
          ("output", Json.obj [("response", Json.str "hi")])] := by
  refine ⟨?_, ?_⟩
  · exact (claim1_amended "" "" 1).2.2.2.1 rfl rfl
  · exact (claim1_amended "\x7b\"success\":true,\"output\":\x7b\"response\":\"hi\"\x7d\x7d" "" 0).1
      (Json.obj [("success", Json.bool true), ("output", Json.obj [("response", Json.str "hi")])])
      (by decide) rfl

/-- C2, counterexample.  An operation that always fails with an error the
default predicate deems non-retryable is invoked exactly once under
maxRetries 2, not three times as the claim states for every always-failing
operation. -/
theorem claim2_counterexample :
    withRetryRun (fun _ => (Except.error "Forbidden" : Except String Unit))
        (fun m => isRetryableError { isTypeError := false, message := m }) 2
      = (Except.error (some "Forbidden"), 1) ∧ (1 : Nat) ≠ 3 := by
  refine ⟨rfl, ?_⟩
  norm_num

/-- C2, amended.  For every operation failing on all invocations with
errors the configured retryability predicate accepts, withRetry with
maxRetries 2 invokes the operation exactly three times (0-based attempt
indices, maxRetries + 1 attempts in total) and rejects with the exact error
of the last attempt, unwrapped; no partial result is returned. -/
theorem claim2_amended {E T : Type} (fn : Nat → Except E T) (p : E → Bool)
    (errs : Nat → E) (hfail : ∀ i, fn i = Except.error (errs i))
    (hretry : ∀ i, p (errs i) = true) :
    withRetryRun fn p 2 = (Except.error (some (errs 2)), 3) := by
  have h3 : ((2 : Int) + 1).toNat = 3 := rfl
  unfold withRetryRun
  rw [h3]
  simp [withRetryGo, hfail 0, hfail 1, hfail 2, hretry 0, hretry 1, hretry 2]

/-- C2, witness: a concrete always-failing retryable operation is invoked
three times and the rejection carries the error of attempt index 2. -/
theorem claim2_witness :
    withRetryRun (fun i => (Except.error (toString i) : Except String Unit)) (fun _ => true) 2
      = (Except.error (some "2"), 3) :=
  claim2_amended (fun i => (Except.error (toString i) : Except String Unit)) (fun _ => true)
    (fun i => toString i) (fun _ => rfl) (fun _ => rfl)

/-- C4.  Every non-2xx response makes the request attempt fail with the
exact message format embedding the status and the body (or the reason
phrase when the body is empty); the concrete 403 response with body Access
denied produces that exact message, and under the default retry options the
operation is not retried: one single invocation. -/
theorem claim4_api_error_format :
    (∀ resp : HttpResponse, respOk resp.status = false →
      fabricAttempt resp = Except.error (FabricFailure.thrownMessage
        ("Fabric API error (" ++ toString resp.status ++ "): " ++ jsOr resp.body resp.statusText))) ∧
    fabricAttempt { status := 403, body := "Access denied", statusText := "Forbidden" }
      = Except.error (FabricFailure.thrownMessage "Fabric API error (403): Access denied") ∧
    (∀ jr : Bool,
      fabricRequestWithRetry { status := 403, body := "Access denied", statusText := "Forbidden" } jr
        = (Except.error (some (FabricFailure.thrownMessage "Fabric API error (403): Access denied")), 1)) := by
  refine ⟨?_, rfl, fun jr => rfl⟩
  intro resp h
  simp [fabricAttempt, fabricErrorMessage, h]

/-- C4, witness: a concrete 500 response with empty body fails with the
reason phrase in the message. -/
theorem claim4_witness :
    respOk 500 = false ∧
    fabricAttempt { status := 500, body := "", statusText := "Internal Server Error" }
      = Except.error (FabricFailure.thrownMessage "Fabric API error (500): Internal Server Error") :=
  ⟨rfl, claim4_api_error_format.1 { status := 500, body := "", statusText := "Internal Server Error" } rfl⟩

/-- C6.  For positive base and maximum delays and a jitter draw r from
[0, 1), the slept duration delay + delay * 0.1 * r is at least
min(base * 2 ^ i, max) and strictly below 1.1 times that value. -/
theorem claim6_backoff_bounds (baseDelayMs maxDelayMs : ℚ) (i : Nat) (r : ℚ)
    (hbase : 0 < baseDelayMs) (hmax : 0 < maxDelayMs) (hr0 : 0 ≤ r) (hr1 : r < 1) :
    retryDelay baseDelayMs maxDelayMs i ≤ retrySleepTime baseDelayMs maxDelayMs i r ∧
    retrySleepTime baseDelayMs maxDelayMs i r < (11 / 10) * retryDelay baseDelayMs maxDelayMs i := by
  have hd : 0 < retryDelay baseDelayMs maxDelayMs i :=
    lt_min (mul_pos hbase (pow_pos (by norm_num) i)) hmax
  unfold retrySleepTime
  constructor
  · nlinarith [mul_nonneg (mul_nonneg hd.le (by norm_num : (0 : ℚ) ≤ 1 / 10)) hr0]
  · nlinarith [mul_lt_mul_of_pos_left hr1 hd]

/-- C6, witness: the default options at attempt index 2 with r = 1/2. -/
theorem claim6_witness :
    (0 : ℚ) < 1000 ∧ (0 : ℚ) < 10000 ∧ (0 : ℚ) ≤ 1 / 2 ∧ (1 / 2 : ℚ) < 1 ∧
    (retryDelay 1000 10000 2 ≤ retrySleepTime 1000 10000 2 (1 / 2) ∧
     retrySleepTime 1000 10000 2 (1 / 2) < (11 / 10) * retryDelay 1000 10000 2) :=
  ⟨by norm_num, by norm_num, by norm_num, by norm_num,
    claim6_backoff_bounds 1000 10000 2 (1 / 2) (by norm_num) (by norm_num) (by norm_num) (by norm_num)⟩

/-- C7, counterexample.  On the empty input the classifier returns the
empty message: every branch marker is absent, and the default branch finds
no substantive line and falls back to the first 200 characters of the
trimmed (empty) input. -/
theorem claim7_counterexample : (classifyPythonError "").message = "" := rfl

/-- C7, amended.  The classifier is a total function (the embedding is a
Lean function on all of String, so it never throws); on the empty input it
returns a ClassifiedError whose message is the empty string and whose
suggestion is absent. -/
theorem claim7_amended :
    classifyPythonError "" = { message := "", suggestion := none } := rfl

/-- C9, counterexample.  The primary-channel text 42 parses as JSON without
any success field, yet the close handler resolves it verbatim as the
result instead of taking the synthetic-failure path. -/
theorem claim9_counterexample :
    closeResult "42" "" 0 = Json.num "42" ∧
    Json.num "42" ≠ Json.obj [("success", Json.bool false), ("error", Json.str "42")] := by
  refine ⟨rfl, ?_⟩
  simp

/-- C9, amended.  runWorkflow performs no structural validation of the
primary-channel JSON: every successfully parsed payload, of any shape, is
resolved verbatim as the execution result; only a parse failure takes the
synthetic-failure path. -/
theorem claim9_amended (stdout stderr : String) (code : Int) (v : Json)
    (ht : jsTrim stdout ≠ "") (hp : jsonParse stdout = some v) :
    closeResult stdout stderr code = v := by
  simp [closeResult, ht, hp]

/-- C9, witness: the JSON text null is resolved verbatim as the result. -/
theorem claim9_witness :
    jsTrim "null" ≠ "" ∧ jsonParse "null" = some Json.null ∧
    closeResult "null" "ignored" 7 = Json.null :=
  ⟨by decide, rfl, claim9_amended "null" "ignored" 7 Json.null (by decide) rfl⟩

/-- C10.  For every negative maxRetries the loop guard fails immediately:
the operation is invoked zero times and withRetry rejects with the
undefined initial value of the lastError accumulator (modelled none). -/
theorem claim10_negative_max (fn : Nat → Except String Unit) (p : String → Bool)
    (m : Int) (hm : m < 0) : withRetryRun fn p m = (Except.error none, 0) := by
  unfold withRetryRun
  have h : (m + 1).toNat = 0 := Int.toNat_of_nonpos (by omega)
  rw [h]
  rfl

/-- C10, witness: maxRetries -1 with a concrete operation. -/
theorem claim10_witness :
    ((-1 : Int) < 0) ∧
    withRetryRun (fun _ => (Except.error "boom" : Except String Unit)) (fun _ => true) (-1)
      = (Except.error none, 0) :=
  ⟨by norm_num,
    claim10_negative_max (fun _ => (Except.error "boom" : Except String Unit)) (fun _ => true)
      (-1) (by norm_num)⟩

/-- C3.  The default retryability predicate holds exactly on TypeError
fetch failures, network-failure markers (connection refused or reset, DNS
resolution failure, timeout, generic fetch failure) and the four transient
HTTP status markers in parenthesized form; in particular a 403 status
error is not retryable. -/
theorem claim3_default_predicate :
    (∀ e : JsErrorValue,
      isRetryableError e = true ↔
        ((e.isTypeError = true ∧ strIncludes e.message "fetch" = true) ∨
         strIncludes e.message "ECONNREFUSED" = true ∨
         strIncludes e.message "ECONNRESET" = true ∨
         strIncludes e.message "ETIMEDOUT" = true ∨
         strIncludes e.message "EAI_AGAIN" = true ∨
         strIncludes e.message "fetch failed" = true ∨
         strIncludes e.message "(429)" = true ∨
         strIncludes e.message "(502)" = true ∨
         strIncludes e.message "(503)" = true ∨
         strIncludes e.message "(504)" = true)) ∧
    isRetryableError { isTypeError := false, message := "Fabric API error (403): Access denied" } = false := by
  refine ⟨?_, rfl⟩
  intro e
  have h429 : ("(" ++ toString (429 : Nat) ++ ")") = "(429)" := rfl
  have h502 : ("(" ++ toString (502 : Nat) ++ ")") = "(502)" := rfl
  have h503 : ("(" ++ toString (503 : Nat) ++ ")") = "(503)" := rfl
  have h504 : ("(" ++ toString (504 : Nat) ++ ")") = "(504)" := rfl
  simp only [isRetryableError, RETRYABLE_STATUS_CODES, List.any_cons, List.any_nil,
    h429, h502, h503, h504, Bool.or_false]
  split
  · rename_i hcond
    simp only [Bool.and_eq_true] at hcond
    simp [hcond]
  · rename_i hcond
    split
    · rename_i hnet
      simp only [Bool.or_eq_true] at hnet
      constructor
      · intro _
        tauto
      · intro _
        rfl
    · rename_i hnet
      split
      · rename_i hcode
        simp only [Bool.or_eq_true] at hcode
        constructor
        · intro _
          tauto
        · intro _
          rfl
      · rename_i hcode
        constructor
        · intro hfalse
          cases hfalse
        · intro hdisj
          exfalso
          simp only [Bool.and_eq_true] at hcond
          simp only [Bool.or_eq_true, not_or] at hnet hcode
          rcases hdisj with ⟨ha, hb⟩ | h | h | h | h | h | h | h | h | h <;> tauto

/-- C8, helper: the discovery fallbacks of the code and of the
specification wording agree. -/
theorem ensure_discovery_eq (env : EnsureEnv) :
    ensurePythonDiscovery env = resolutionPolicySpecDiscovery env := by
  unfold ensurePythonDiscovery resolutionPolicySpecDiscovery
  cases env.foundPython with
  | none => rfl
  | some p =>
    by_cases h1 : env.nodesInstalled p <;> by_cases h2 : env.installOk <;> simp [h1, h2]

/-- C8, helper: the managed-environment steps of the code and of the
specification wording agree. -/
theorem ensure_venv_eq (env : EnsureEnv) :
    ensurePythonVenvStep env = resolutionPolicySpecManaged env := by
  unfold ensurePythonVenvStep resolutionPolicySpecManaged
  cases env.venv_dir with
  | none => exact ensure_discovery_eq env
  | some d =>
    by_cases h1 : d = "" <;> by_cases h2 : isVenvValidIn env d <;>
      by_cases h3 : env.nodesInstalled (getVenvPythonPath env.isWin32 d) <;>
      simp [jsTruthyStr, h1, h2, h3, ensure_discovery_eq env]

/-- C8.  For every environment, ensurePython realizes exactly the
specified resolution order: the configured explicit runtime path when it
exists with the dependency, else the valid configured managed environment
with the dependency, else system-path discovery with on-demand install,
and a fatal non-zero exit when no runtime is found or the install fails. -/
theorem claim8_resolution_order (env : EnsureEnv) :
    ensurePython env = resolutionPolicySpec env := by
  unfold ensurePython resolutionPolicySpec
  cases env.python_path with
  | none => exact ensure_venv_eq env
  | some p =>
    by_cases h1 : p = "" <;> by_cases h2 : env.fileExists p <;>
      by_cases h3 : env.nodesInstalled p <;>
      simp [jsTruthyStr, h1, h2, h3, ensure_venv_eq env]

/-- C5, helper: annotation does not change the event type. -/
theorem annotateStep_type (st : ProgState) (e : ProgressEvent) :
    ((annotateStep st e).2).type = e.type := by
  rcases e with ⟨ty, tn, cn, nn, msg⟩
  cases ty <;> rfl

/-- C5, helper: the completed counter increments exactly on node-done
events. -/
theorem annotateStep_completed (st : ProgState) (e : ProgressEvent) :
    ((annotateStep st e).1).completedNodes
      = st.completedNodes
        + (if ((annotateStep st e).2).type = EventType.node_done then 1 else 0) := by
  rcases e with ⟨ty, tn, cn, nn, msg⟩
  cases ty <;> simp [annotateStep]
  split <;> rfl

/-- C5, helper: the total counter is updated exactly by started events
carrying a truthy count. -/
theorem annotateStep_total (st : ProgState) (e : ProgressEvent) :
    ((annotateStep st e).1).totalNodes
      = (if ((annotateStep st e).2).type = EventType.started
            && ((annotateStep st e).2).totalNodes.getD 0 != 0
         then ((annotateStep st e).2).totalNodes.getD 0 else st.totalNodes) := by
  rcases e with ⟨ty, tn, cn, nn, msg⟩
  cases ty <;> simp [annotateStep]
  by_cases h : tn.getD 0 = 0 <;> simp [h]

/-- C5, helper: the fields written on a forwarded node-done event. -/
theorem annotateStep_done_fields (st : ProgState) (e : ProgressEvent)
    (h : ((annotateStep st e).2).type = EventType.node_done) :
    ((annotateStep st e).2).currentNode = some (st.completedNodes + 1) ∧
    ((annotateStep st e).2).totalNodes = some st.totalNodes := by
  rcases e with ⟨ty, tn, cn, nn, msg⟩
  cases ty <;> simp [annotateStep] at h ⊢

/-- C5, helper: the fields written on a forwarded node-running event. -/
theorem annotateStep_running_fields (st : ProgState) (e : ProgressEvent)
    (h : ((annotateStep st e).2).type = EventType.node_running) :
    ((annotateStep st e).2).currentNode = some (st.completedNodes + 1) ∧
    ((annotateStep st e).2).totalNodes = some st.totalNodes := by
  rcases e with ⟨ty, tn, cn, nn, msg⟩
  cases ty <;> simp [annotateStep] at h ⊢

/-- C5, helper: a line that forwards no event leaves the state unchanged. -/
theorem processLine_none_state (st : ProgState) (l : String) (st1 : ProgState)
    (h : processLine st l = (st1, none)) : st1 = st := by
  unfold processLine at h
  by_cases ht : jsTrim l = ""
  · simp [ht] at h
    exact h.symm
  · simp [ht] at h
    cases hp : parseProgressLine (jsTrim l) with
    | none => simp [hp] at h; exact h.symm
    | some e => simp [hp] at h

/-- C5, helper: a forwarded event together with the new state comes from
one annotation step on the parsed event. -/
theorem processLine_some_annotate (st : ProgState) (l : String) (st1 : ProgState)
    (e1 : ProgressEvent) (h : processLine st l = (st1, some e1)) :
    ∃ e0, annotateStep st e0 = (st1, e1) := by
  unfold processLine at h
  by_cases ht : jsTrim l = ""
  · simp [ht] at h
  · simp [ht] at h
    cases hp : parseProgressLine (jsTrim l) with
    | none => simp [hp] at h
    | some e =>
      simp [hp] at h
      exact ⟨e, by rw [Prod.ext_iff]; exact ⟨h.1, h.2⟩⟩

/-- C5, helper: the done-event counter on a cons. -/
theorem countDoneEvents_cons (e : ProgressEvent) (l : List ProgressEvent) :
    countDoneEvents (e :: l)
      = (if e.type = EventType.node_done then 1 else 0) + countDoneEvents l := by
  simp only [countDoneEvents, List.filter_cons]
  split
  · rename_i h
    simp only [decide_eq_true_eq] at h
    simp [h, Nat.add_comm]
  · rename_i h
    simp only [decide_eq_true_eq] at h
    simp [h]

/-- C5, helper: the last announced total on a cons. -/
theorem lastAnnouncedTotal_cons (t : Nat) (e : ProgressEvent) (l : List ProgressEvent) :
    lastAnnouncedTotal t (e :: l)
      = lastAnnouncedTotal
          (if e.type = EventType.started && e.totalNodes.getD 0 != 0
           then e.totalNodes.getD 0 else t) l := rfl

/-- C5, main invariant: in the event stream forwarded for any line list
from any starting counters, every node-done event carries as currentNode
the running done-count (offset by the starting counter) and every
node-running event carries the done-count so far plus one, both carrying
the last announced total node count. -/
theorem processLines_annotation (lines : List String) : ∀ (st : ProgState) (i : Nat)
    (e : ProgressEvent), (emittedEvents st lines).get? i = some e →
    (e.type = EventType.node_done →
      e.currentNode
        = some (st.completedNodes + countDoneEvents ((emittedEvents st lines).take i) + 1) ∧
      e.totalNodes
        = some (lastAnnouncedTotal st.totalNodes ((emittedEvents st lines).take i))) ∧
    (e.type = EventType.node_running →
      e.currentNode
        = some (st.completedNodes + countDoneEvents ((emittedEvents st lines).take i) + 1) ∧
      e.totalNodes
        = some (lastAnnouncedTotal st.totalNodes ((emittedEvents st lines).take i))) := by
  induction lines with
  | nil =>
    intro st i e hget
    simp [emittedEvents, processLines] at hget
  | cons l ls ih =>
    intro st i e hget
    rcases hpl : processLine st l with ⟨st1, ev⟩
    cases ev with
    | none =>
      have hst : st1 = st := processLine_none_state st l st1 hpl
      subst hst
      have hemit : emittedEvents st1 (l :: ls) = emittedEvents st1 ls := by
        simp [emittedEvents, processLines, hpl]
      rw [hemit] at hget ⊢
      exact ih st1 i e hget
    | some e1 =>
      obtain ⟨e0, hann⟩ := processLine_some_annotate st l st1 e1 hpl
      have h1 : (annotateStep st e0).1 = st1 := by rw [hann]
      have h2 : (annotateStep st e0).2 = e1 := by rw [hann]
      have hemit : emittedEvents st (l :: ls) = e1 :: emittedEvents st1 ls := by
        simp [emittedEvents, processLines, hpl]
      rw [hemit] at hget ⊢
      cases i with
      | zero =>
        simp only [List.get?] at hget
        have he : e = e1 := by injection hget with hh; exact hh.symm
        subst he
        constructor
        · intro hty
          have hf := annotateStep_done_fields st e0 (by rw [h2]; exact hty)
          rw [h2] at hf
          simpa [countDoneEvents, lastAnnouncedTotal] using hf
        · intro hty
          have hf := annotateStep_running_fields st e0 (by rw [h2]; exact hty)
          rw [h2] at hf
          simpa [countDoneEvents, lastAnnouncedTotal] using hf
      | succ j =>
        simp only [List.get?] at hget
        have hc : st1.completedNodes
            = st.completedNodes + (if e1.type = EventType.node_done then 1 else 0) := by
          have hcc := annotateStep_completed st e0
          rw [h1, h2] at hcc
          exact hcc
        have htot : st1.totalNodes
            = (if e1.type = EventType.started && e1.totalNodes.getD 0 != 0
               then e1.totalNodes.getD 0 else st.totalNodes) := by
          have hta := annotateStep_total st e0
          rw [h1, h2] at hta
          exact hta
        constructor
        · intro hty
          obtain ⟨ha, hb⟩ := (ih st1 j e hget).1 hty
          constructor
          · rw [ha]
            congr 1
            rw [List.take_succ_cons, countDoneEvents_cons, hc]
            omega
          · rw [hb]
            congr 1
            rw [List.take_succ_cons, lastAnnouncedTotal_cons, ← htot]
        · intro hty
          obtain ⟨ha, hb⟩ := (ih st1 j e hget).2 hty
          constructor
          · rw [ha]
            congr 1
            rw [List.take_succ_cons, countDoneEvents_cons, hc]
            omega
          · rw [hb]
            congr 1
            rw [List.take_succ_cons, lastAnnouncedTotal_cons, ← htot]

/-- C5.  The progress parser maps the started line to a started event with
the captured count (case-insensitively, whitespace-tolerant after the
keyword and after the count), the bracketed running line to a node-running
event with the bracketed name; and over every sequence of parsed lines the
forwarded node-done events carry the running done-count as currentNode
while node-running events carry the done-count so far plus one, both
carrying the last announced total node count. -/
theorem claim5_progress_protocol :
    parseProgressLine "Workflow started (5 nodes)"
      = some { type := EventType.started, totalNodes := some 5 } ∧
    parseProgressLine "WORKFLOW STARTED(5   NODES)"
      = some { type := EventType.started, totalNodes := some 5 } ∧
    parseProgressLine "[LLM] running"
      = some { type := EventType.node_running, nodeName := some "LLM" } ∧
    ∀ (lines : List String) (i : Nat) (e : ProgressEvent),
      (emittedEvents { completedNodes := 0, totalNodes := 0 } lines).get? i = some e →
      (e.type = EventType.node_done →
        e.currentNode
          = some (countDoneEvents
              ((emittedEvents { completedNodes := 0, totalNodes := 0 } lines).take i) + 1) ∧
        e.totalNodes
          = some (lastAnnouncedTotal 0
              ((emittedEvents { completedNodes := 0, totalNodes := 0 } lines).take i))) ∧
      (e.type = EventType.node_running →
        e.currentNode
          = some (countDoneEvents
              ((emittedEvents { completedNodes := 0, totalNodes := 0 } lines).take i) + 1) ∧
        e.totalNodes
          = some (lastAnnouncedTotal 0
              ((emittedEvents { completedNodes := 0, totalNodes := 0 } lines).take i))) := by
  refine ⟨rfl, rfl, rfl, ?_⟩
  intro lines i e hget
  simpa using processLines_annotation lines { completedNodes := 0, totalNodes := 0 } i e hget

/-- C5, witness lines: a two-node run with interleaved events. -/
def demoLines : List String :=
  ["Workflow started (2 nodes)", "[A] running", "[A] done", "[B] running"]

/-- C5, witness event: the fourth event forwarded on the demo lines. -/
def demoRunningEvent : ProgressEvent :=
  { type := EventType.node_running, totalNodes := some 2, currentNode := some 2, nodeName := some "B" }

/-- C5, witness: on the demo lines the fourth forwarded event is the
node-running event for B annotated with index 2 of 2. -/
theorem claim5_witness :
    (emittedEvents { completedNodes := 0, totalNodes := 0 } demoLines).get? 3
      = some demoRunningEvent ∧
    demoRunningEvent.currentNode = some 2 ∧
    demoRunningEvent.totalNodes = some 2 := by
  refine ⟨by decide, ?_, ?_⟩
  · exact ((claim5_progress_protocol.2.2.2 demoLines 3 demoRunningEvent
      (by decide)).2 rfl).1.trans (by decide)
  · exact ((claim5_progress_protocol.2.2.2 demoLines 3 demoRunningEvent
      (by decide)).2 rfl).2.trans (by decide)
